import Mathlib

/-!
Verification of the webcam weapons-detection page (`src/app.js`).

The page is single-threaded and callback-driven.  We embed it as:

* pure functions for the per-frame prediction filter (`filterPreds`) and
  the canvas annotator (`drawBoxes`), which produces an explicit list of
  2D-context drawing commands instead of mutating a canvas;
* a small-step event machine (`step`) over `AppState`, whose events are the
  atomic code segments between the `await` suspension points of `app.js`
  (model-load resolution, the two awaits inside the start handler, the
  `model.detect` await inside `loop`, a `requestAnimationFrame` callback
  firing, and the two synchronous click handlers).

JS numbers are modelled as `ℚ`; `performance.now()` timestamps and detector
data arrive as event payloads.  `ctx.measureText` depends on the platform
font engine, so the annotator is parameterised by a `measure : String → ℚ`
function.
-/

/-- The dangerous-class set, `DANGEROUS` in `app.js` (a JS `Set`, modelled as
a list with membership). -/
def DANGEROUS : List String := ["knife", "scissors", "baseball bat"]

/-- One detector prediction: `{class, score, bbox:[x,y,w,h]}` as returned by
`model.detect`.  The JS key `class` is a Lean keyword, hence `className`. -/
structure Detection where
  className : String
  score : ℚ
  bbox : ℚ × ℚ × ℚ × ℚ
deriving DecidableEq

/-- A 2D-context drawing command.  The JS code sets `strokeStyle`,
`lineWidth`, `fillStyle` and `font` immediately before each primitive, so we
attach the current style directly to the command. -/
inductive DrawCmd
  | frame
  | strokeRect (color : String) (width : ℚ) (x y w h : ℚ)
  | fillRect (color : String) (x y w h : ℚ)
  | fillText (color : String) (font : String) (text : String) (x y : ℚ)
deriving DecidableEq

/-- The font string used for labels and the FPS indicator. -/
def appFont : String :=
  "600 14px ui-sans-serif, system-ui, -apple-system, Segoe UI, Roboto, Arial"

/-- JS `Number.prototype.toFixed(1)` for nonnegative rationals:
round half up to one decimal place. -/
def toFixed1 (q : ℚ) : String :=
  let n : ℤ := ⌊q * 10 + 1/2⌋
  toString (n / 10) ++ "." ++ toString (n % 10)

/-- The label string of a prediction:
`` `${p.class} ${(p.score * 100).toFixed(1)}%` ``. -/
def predLabel (p : Detection) : String :=
  p.className ++ " " ++ toFixed1 (p.score * 100) ++ "%"

/-- The drawing commands the body of the `for` loop in `drawBoxes` emits for
one prediction: the bounding-box stroke, the label-chip fill
(`padX = 8`, `boxH = 22`, chip clamped at the canvas top), and the label
text. -/
def drawPred (measure : String → ℚ) (p : Detection) : List DrawCmd :=
  let x := p.bbox.1
  let y := p.bbox.2.1
  let w := p.bbox.2.2.1
  let h := p.bbox.2.2.2
  let isDanger := DANGEROUS.contains p.className
  let color := if isDanger then "#f87171" else "#7dd3fc"
  let thick : ℚ := if isDanger then 4 else 2
  let label := predLabel p
  let boxW := measure label + 2 * 8
  [ .strokeRect color thick x y w h,
    .fillRect "rgba(0,0,0,0.6)" x (max 0 (y - 22)) boxW 22,
    .fillText "#ffffff" appFont label (x + 8) (max 12 (y - 6)) ]

/-- The FPS value of `drawBoxes`:
`1000 / Math.max(1, now - drawBoxes.prev)`, where a falsy stored `prev`
(absent on the first call, modelled as `0`) is first replaced by `now`. -/
def fpsValue (now prev : ℚ) : ℚ :=
  let effPrev := if prev = 0 then now else prev
  1000 / max 1 (now - effPrev)

/-- The two commands of the FPS corner indicator. -/
def fpsCmds (now prev : ℚ) : List DrawCmd :=
  [ .fillRect "rgba(0,0,0,0.5)" 8 8 110 26,
    .fillText "#e6ecf2" appFont ("~" ++ toFixed1 (fpsValue now prev) ++ " FPS") 16 26 ]

/-- `drawBoxes(preds)` at wall-clock time `now` with stored timestamp `prev`
(`drawBoxes.prev`, `0` when unset): returns the emitted drawing commands and
the new stored timestamp (always `now`). -/
def drawBoxes (measure : String → ℚ) (preds : List Detection) (now prev : ℚ) :
    List DrawCmd × ℚ :=
  ((preds.map (drawPred measure)).flatten ++ fpsCmds now prev, now)

/-- The per-frame filter:
`showAll.checked ? predictions : predictions.filter(p => DANGEROUS.has(p.class))`. -/
def filterPreds (showAllChecked : Bool) (preds : List Detection) : List Detection :=
  if showAllChecked then preds
  else preds.filter (fun p => DANGEROUS.contains p.className)

/-- The user-visible status line (`statusEl.textContent`). -/
inductive Status
  | initial | modelLoaded | modelFailed | stillLoading
  | cameraRunning | cameraFail | cameraStopped
deriving DecidableEq

/-- The exact status strings written by `app.js` (the `initial` text is set
by the HTML page, which is not part of `src/`). -/
def Status.text : Status → String
  | .initial => ""
  | .modelLoaded => "Model loaded. Click “Start Camera”."
  | .modelFailed => "Failed to load model."
  | .stillLoading => "Still loading model…"
  | .cameraRunning => "Camera running. Detecting…"
  | .cameraFail => "Could not access camera. Check permissions."
  | .cameraStopped => "Camera stopped."

/-- A pending continuation of the browser event loop: the start handler
awaiting `getUserMedia`, the start handler awaiting `video.play()`, a `loop`
invocation awaiting `model.detect`, or a scheduled
`requestAnimationFrame` callback with its handle. -/
inductive AppTask
  | awaitGUM | awaitPlay | awaitDetect
  | raf (id : ℕ)
deriving DecidableEq

/-- The whole mutable state of the page: the module-level globals of
`app.js`, the canvas, the DOM bits the script writes, and the multiset
(list) of pending continuations. -/
structure AppState where
  modelPending : Bool
  modelLoaded : Bool
  stream : Bool
  running : Bool
  rafId : Option ℕ
  nextId : ℕ
  tasks : List AppTask
  showAllChecked : Bool
  startDisabled : Bool
  stopDisabled : Bool
  status : Status
  canvasW : ℕ
  canvasH : ℕ
  canvas : List DrawCmd
  fpsPrev : ℚ
deriving DecidableEq

/-- Page load: model load pending, all globals at their initial values
(`model = null`, `stream = null`, `running = false`, `rafId = null`),
no continuation pending.  rAF handles are numbered from 1 (JS handles are
nonzero, which the `if (rafId)` truthiness test in the stop handler relies
on). -/
def initState : AppState :=
  { modelPending := true, modelLoaded := false, stream := false,
    running := false, rafId := none, nextId := 1, tasks := [],
    showAllChecked := false, startDisabled := false, stopDisabled := true,
    status := .initial, canvasW := 0, canvasH := 0, canvas := [],
    fpsPrev := 0 }

/-- Remove the first occurrence of a task (used for resolving one pending
continuation and for `cancelAnimationFrame`, which is a no-op on a stale
handle). -/
def removeFirst (t : AppTask) : List AppTask → List AppTask
  | [] => []
  | x :: xs => if x = t then xs else x :: removeFirst t xs

/-- An atomic event of the page: resolution of the model-load promise, a
click on Start, resolution of `getUserMedia`, resolution of `video.play()`,
toggling the Show-all checkbox, a click on Stop, completion of
`model.detect` (with the predictions and the `performance.now()` timestamp
that `drawBoxes` will read), or a scheduled animation-frame callback
firing. -/
inductive Event
  | modelOk | modelFail
  | startClick
  | gumOk | gumFail
  | playOk (vw vh : ℕ) | playFail
  | setShowAll (b : Bool)
  | stopClick
  | detectOk (preds : List Detection) (now : ℚ)
  | detectFail (now : ℚ)
  | rafFire (id : ℕ)

/-- The common tail of `loop` after the detect `try`/`catch`: filter the
predictions, run `drawBoxes`, then `rafId = requestAnimationFrame(loop)` —
note this runs whether or not `running` is still true. -/
def finishCycle (measure : String → ℚ) (s : AppState)
    (predictions : List Detection) (now : ℚ) : AppState :=
  let filtered := filterPreds s.showAllChecked predictions
  let r := drawBoxes measure filtered now s.fpsPrev
  { s with tasks := removeFirst .awaitDetect s.tasks ++ [.raf s.nextId],
           canvas := s.canvas ++ r.1,
           fpsPrev := r.2,
           rafId := some s.nextId,
           nextId := s.nextId + 1 }

/-- One atomic step of the page.  `none` when the event is not enabled
(no matching pending continuation). -/
def step (measure : String → ℚ) : Event → AppState → Option AppState
  | .modelOk, s =>
    if s.modelPending then
      some { s with modelPending := false, modelLoaded := true,
                    status := .modelLoaded }
    else none
  | .modelFail, s =>
    if s.modelPending then
      some { s with modelPending := false, status := .modelFailed }
    else none
  | .startClick, s =>
    -- `if (!model) { statusEl.textContent = 'Still loading model…'; return; }`
    if s.modelLoaded = false then some { s with status := .stillLoading }
    else some { s with tasks := s.tasks ++ [.awaitGUM] }
  | .gumOk, s =>
    if .awaitGUM ∈ s.tasks then
      some { s with stream := true,
                    tasks := removeFirst .awaitGUM s.tasks ++ [.awaitPlay] }
    else none
  | .gumFail, s =>
    -- the `catch` of the start handler; `stream` was never assigned
    if .awaitGUM ∈ s.tasks then
      some { s with tasks := removeFirst .awaitGUM s.tasks,
                    status := .cameraFail }
    else none
  | .playOk vw vh, s =>
    -- canvas sizing (`video.videoWidth || 1280`), `running = true`,
    -- button toggles, status, then the synchronous prefix of `loop()`:
    -- the `running` guard passes, the frame is drawn, `model.detect` begins
    if .awaitPlay ∈ s.tasks then
      some { s with canvasW := if vw = 0 then 1280 else vw,
                    canvasH := if vh = 0 then 720 else vh,
                    running := true, startDisabled := true,
                    stopDisabled := false, status := .cameraRunning,
                    canvas := s.canvas ++ [.frame],
                    tasks := removeFirst .awaitPlay s.tasks ++ [.awaitDetect] }
    else none
  | .playFail, s =>
    -- the `catch` of the start handler; note `stream` is NOT cleared here
    if .awaitPlay ∈ s.tasks then
      some { s with tasks := removeFirst .awaitPlay s.tasks,
                    status := .cameraFail }
    else none
  | .setShowAll b, s => some { s with showAllChecked := b }
  | .stopClick, s =>
    -- `running = false; if (rafId) cancelAnimationFrame(rafId);
    --  if (stream) {stop tracks; stream = null;} clearRect; buttons; status`
    let tasks1 := match s.rafId with
      | none => s.tasks
      | some i => removeFirst (.raf i) s.tasks
    some { s with running := false, tasks := tasks1, stream := false,
                  canvas := [], startDisabled := false, stopDisabled := true,
                  status := .cameraStopped }
  | .detectOk preds now, s =>
    if .awaitDetect ∈ s.tasks then some (finishCycle measure s preds now)
    else none
  | .detectFail now, s =>
    -- `catch (e) { console.error(e); }` — predictions stays `[]`
    if .awaitDetect ∈ s.tasks then some (finishCycle measure s [] now)
    else none
  | .rafFire i, s =>
    -- the scheduled callback invokes `loop()`: `if (!running) return;`
    -- otherwise draw the frame and begin `model.detect`
    if .raf i ∈ s.tasks then
      if s.running then
        some { s with tasks := removeFirst (.raf i) s.tasks ++ [.awaitDetect],
                      canvas := s.canvas ++ [.frame] }
      else
        some { s with tasks := removeFirst (.raf i) s.tasks }
    else none

/-- One enabled step between two states. -/
def Steps (measure : String → ℚ) (s s' : AppState) : Prop :=
  ∃ e, step measure e s = some s'

/-- States reachable from page load. -/
def Reachable (measure : String → ℚ) (s : AppState) : Prop :=
  Relation.ReflTransGen (Steps measure) initState s

/-- Run a concrete list of events from page load. -/
def runEvents (measure : String → ℚ) (evs : List Event) : Option AppState :=
  evs.foldlM (fun s e => step measure e s) initState

/-- Frame-cycle tasks: a pending animation-frame callback or an in-flight
`loop` awaiting the detector. -/
def isFrameTask : AppTask → Bool
  | .awaitDetect => true
  | .raf _ => true
  | _ => false

/-! ## Helper lemmas -/

lemma countP_removeFirst_of_neg (p : AppTask → Bool) (t : AppTask)
    (h : p t = false) :
    ∀ l : List AppTask, (removeFirst t l).countP p = l.countP p := by
  intro l
  induction l with
  | nil => rfl
  | cons x xs ih =>
    rw [removeFirst]
    by_cases hx : x = t
    · subst hx
      simp [List.countP_cons, h]
    · simp [hx, List.countP_cons, ih]

lemma toFixed1_two : toFixed1 2 = "2.0" := by
  rw [toFixed1]
  norm_num
  rfl

lemma toFixed1_thousand : toFixed1 1000 = "1000.0" := by
  rw [toFixed1]
  norm_num
  rfl

lemma toFixed1_ninetytwo : toFixed1 (92/100 * 100) = "92.0" := by
  rw [toFixed1]
  norm_num
  rfl

/-! ## Claims about the prediction filter -/

/-- Claim C4: for every prediction list `P`, filtering with the
dangerous-only mode keeps exactly the predictions whose class is in
`DANGEROUS` — every kept element's class is dangerous, no dangerous element
of `P` is dropped, and the relative order is preserved (the result is a
sublist of `P`). -/
theorem filter_dangerousOnly_correct (P : List Detection) :
    (∀ p ∈ filterPreds false P, p.className ∈ DANGEROUS) ∧
    (∀ p ∈ P, p.className ∈ DANGEROUS → p ∈ filterPreds false P) ∧
    (filterPreds false P).Sublist P := by
  refine ⟨?_, ?_, ?_⟩
  · intro p hp
    simp only [filterPreds, if_neg Bool.false_ne_true, List.mem_filter] at hp
    exact List.elem_iff.mp hp.2
  · intro p hp hd
    simp only [filterPreds, if_neg Bool.false_ne_true, List.mem_filter]
    exact ⟨hp, List.elem_iff.mpr hd⟩
  · simp only [filterPreds, if_neg Bool.false_ne_true]
    exact List.filter_sublist P

/-- C4 witness: the knife prediction of the spec scenario survives the
dangerous-only filter. -/
theorem filter_dangerousOnly_correct_witness :
    (⟨"knife", 92/100, (10, 10, 50, 60)⟩ : Detection) ∈
      filterPreds false
        [⟨"knife", 92/100, (10, 10, 50, 60)⟩,
         ⟨"person", 81/100, (100, 100, 40, 80)⟩] :=
  (filter_dangerousOnly_correct _).2.1 _ (by simp) (by decide)

/-- Claim C5: with the show-all mode the filter is the identity, and in
either mode the filter is idempotent. -/
theorem filter_showAll_id_idem (P : List Detection) (m : Bool) :
    filterPreds true P = P ∧
    filterPreds m (filterPreds m P) = filterPreds m P := by
  refine ⟨rfl, ?_⟩
  cases m
  · simp [filterPreds, List.filter_filter]
  · rfl

/-! ## Claims about the start/stop handlers and the frame loop -/

/-- Claim C6: clicking Start while the model is not yet loaded only writes
the "Still loading model…" status; `running`, `stream`, the task list — in
particular, no camera request — and everything else are unchanged. -/
theorem start_model_not_ready (measure : String → ℚ) (s : AppState)
    (h : s.modelLoaded = false) :
    step measure .startClick s = some { s with status := .stillLoading } ∧
    Status.text .stillLoading = "Still loading model…" :=
  ⟨by simp [step, h], rfl⟩

/-- C6 witness: Start clicked straight after page load. -/
theorem start_model_not_ready_witness :
    step (fun _ => 0) .startClick initState =
      some { initState with status := .stillLoading } ∧
    Status.text .stillLoading = "Still loading model…" :=
  start_model_not_ready (fun _ => 0) initState rfl
lemma frameTask_step (measure : String → ℚ) (e : Event) (s s' : AppState)
    (he : step measure e s = some s')
    (ih : s.running = true → 1 ≤ s.tasks.countP isFrameTask) :
    s'.running = true → 1 ≤ s'.tasks.countP isFrameTask := by
  cases e with
  | modelOk =>
    rw [step] at he
    split at he
    · rw [Option.some_inj] at he; subst he; exact ih
    · exact Option.noConfusion he
  | modelFail =>
    rw [step] at he
    split at he
    · rw [Option.some_inj] at he; subst he; exact ih
    · exact Option.noConfusion he
  | startClick =>
    rw [step] at he
    split at he
    · rw [Option.some_inj] at he; subst he; exact ih
    · rw [Option.some_inj] at he; subst he
      intro hr
      have := ih hr
      simp only [List.countP_append]
      omega
  | gumOk =>
    rw [step] at he
    split at he
    · rw [Option.some_inj] at he; subst he
      intro hr
      have := ih hr
      simp only [List.countP_append,
        countP_removeFirst_of_neg isFrameTask .awaitGUM rfl]
      omega
    · exact Option.noConfusion he
  | gumFail =>
    rw [step] at he
    split at he
    · rw [Option.some_inj] at he; subst he
      intro hr
      have := ih hr
      simp only [countP_removeFirst_of_neg isFrameTask .awaitGUM rfl]
      omega
    · exact Option.noConfusion he
  | playOk vw vh =>
    rw [step] at he
    split at he
    · rw [Option.some_inj] at he; subst he
      intro _
      simp only [List.countP_append, List.countP_cons, List.countP_nil,
        isFrameTask, if_true]
      omega
    · exact Option.noConfusion he
  | playFail =>
    rw [step] at he
    split at he
    · rw [Option.some_inj] at he; subst he
      intro hr
      have := ih hr
      simp only [countP_removeFirst_of_neg isFrameTask .awaitPlay rfl]
      omega
    · exact Option.noConfusion he
  | setShowAll b =>
    rw [step] at he
    rw [Option.some_inj] at he; subst he; exact ih
  | stopClick =>
    rw [step] at he
    rw [Option.some_inj] at he; subst he
    intro hr
    exact absurd hr (by simp)
  | detectOk preds now =>
    rw [step] at he
    split at he
    · rw [Option.some_inj] at he; subst he
      intro _
      simp only [finishCycle, List.countP_append, List.countP_cons,
        List.countP_nil, isFrameTask, if_true]
      omega
    · exact Option.noConfusion he
  | detectFail now =>
    rw [step] at he
    split at he
    · rw [Option.some_inj] at he; subst he
      intro _
      simp only [finishCycle, List.countP_append, List.countP_cons,
        List.countP_nil, isFrameTask, if_true]
      omega
    · exact Option.noConfusion he
  | rafFire i =>
    rw [step] at he
    split at he
    · split at he
      · rw [Option.some_inj] at he; subst he
        intro _
        simp only [List.countP_append, List.countP_cons, List.countP_nil,
          isFrameTask, if_true]
        omega
      · rw [Option.some_inj] at he; subst he
        intro hr
        rename_i hnr
        exact absurd hr hnr
    · exact Option.noConfusion he

/-- The frame-cycle counting invariant, by induction along reachability:
whenever `running` is true, at least one frame-cycle continuation (a pending
`requestAnimationFrame` callback or a `loop` awaiting the detector)
exists. -/
lemma running_frameTask_invariant (measure : String → ℚ) (s : AppState)
    (h : Reachable measure s) :
    s.running = true → 1 ≤ s.tasks.countP isFrameTask := by
  induction h with
  | refl => intro hr; exact absurd hr (by simp [initState])
  | tail _ hstep ih =>
    obtain ⟨e, he⟩ := hstep
    exact frameTask_step measure e _ _ he ih

/-- Claim C2 is false as stated.  First trace: start the camera, click Stop
while the first detector call is in flight, let the detector resolve — the
in-flight cycle schedules one more frame callback, so `running` is false
with a frame callback pending (and the canvas, cleared by Stop, has been
drawn on again).  Second trace: right after `getUserMedia` resolves but
before `video.play()` resolves, `stream` is non-null while `running` is
still false. -/
theorem session_invariant_counterexample :
    ((runEvents (fun _ => 0)
        [.modelOk, .startClick, .gumOk, .playOk 1280 720, .stopClick,
         .detectOk [] 100]).map
      (fun s => (s.running, s.tasks)) = some (false, [AppTask.raf 1])) ∧
    ((runEvents (fun _ => 0) [.modelOk, .startClick, .gumOk]).map
      (fun s => (s.running, s.stream)) = some (false, true)) := by
  constructor
  · decide
  · decide

/-- Claim C2 (amended): while `running` is true, at least one frame callback
is pending or a frame cycle is in flight (not necessarily exactly one
pending callback — during the detector await no rAF callback is pending);
while `running` is false, a leftover callback can still be pending after a
Stop issued mid-cycle, and `stream` can be transiently non-null during an
in-flight start; what holds unconditionally is that immediately after the
stop handler runs, `running` is false, `stream` is null and the canvas is
cleared. -/
theorem session_invariant_amended (measure : String → ℚ) (s : AppState)
    (h : Reachable measure s) :
    (s.running = true → 1 ≤ s.tasks.countP isFrameTask) ∧
    (∀ s', step measure .stopClick s = some s' →
       s'.running = false ∧ s'.stream = false ∧ s'.canvas = []) := by
  refine ⟨running_frameTask_invariant measure s h, ?_⟩
  intro s' hs'
  rw [step, Option.some_inj] at hs'
  subst hs'
  exact ⟨rfl, rfl, rfl⟩

/-- C2 witness: the amended claim applied at the initial state. -/
theorem session_invariant_amended_witness :
    (initState.running = true → 1 ≤ initState.tasks.countP isFrameTask) ∧
    (∀ s', step (fun _ => 0) .stopClick initState = some s' →
       s'.running = false ∧ s'.stream = false ∧ s'.canvas = []) :=
  session_invariant_amended (fun _ => 0) initState Relation.ReflTransGen.refl

/-- Claim C1 is false as stated: start the camera, click Stop while the
first detector call is pending, and let the detector resolve.  The
in-flight cycle does reschedule — the final state has `running = false` and
a pending animation-frame callback (`rafId = requestAnimationFrame(loop)`
on line 99 of `app.js` runs unconditionally). -/
theorem stop_during_detect_counterexample :
    (runEvents (fun _ => 0)
        [.modelOk, .startClick, .gumOk, .playOk 1280 720, .stopClick,
         .detectOk [] 100]).map
      (fun s => (s.running, s.tasks.countP isFrameTask)) =
      some (false, 1) := by
  decide

/-- Claim C1 (amended): if Stop is issued while a frame cycle's detector
call is pending, the in-flight cycle still reschedules one more frame
callback when the detector resolves; but that callback, on firing with
`running = false`, only removes itself — it draws nothing, starts no
detection and schedules nothing — so no detection can begin after Stop:
Stop is outrun by at most one no-op callback. -/
theorem stop_during_detect_amended (measure : String → ℚ) (s : AppState)
    (preds : List Detection) (now : ℚ)
    (hrun : s.running = false) (hd : AppTask.awaitDetect ∈ s.tasks) :
    (∃ s', step measure (.detectOk preds now) s = some s' ∧
       AppTask.raf s.nextId ∈ s'.tasks ∧ s'.running = false) ∧
    (∀ t i, t.running = false → AppTask.raf i ∈ t.tasks →
       step measure (.rafFire i) t =
         some { t with tasks := removeFirst (.raf i) t.tasks }) := by
  constructor
  · refine ⟨finishCycle measure s preds now, ?_, ?_, ?_⟩
    · simp [step, hd]
    · simp [finishCycle]
    · simpa [finishCycle] using hrun
  · intro t i ht hi
    simp [step, hi, ht]

/-- C1 witness: a stopped state with one in-flight detection, and a stopped
state with one leftover callback. -/
theorem stop_during_detect_amended_witness :
    (∃ s', step (fun _ => 0) (.detectOk [] 1)
        { initState with tasks := [AppTask.awaitDetect] } = some s' ∧
       AppTask.raf 1 ∈ s'.tasks ∧ s'.running = false) ∧
    step (fun _ => 0) (.rafFire 1) { initState with tasks := [AppTask.raf 1] } =
      some { initState with tasks := [] } := by
  have h := stop_during_detect_amended (fun _ => 0)
    { initState with tasks := [AppTask.awaitDetect] } [] 1 rfl (by decide)
  refine ⟨h.1, ?_⟩
  have h2 := h.2 { initState with tasks := [AppTask.raf 1] } 1 rfl (by decide)
  rw [h2]
  rfl

lemma removeFirst_of_not_mem (t : AppTask) :
    ∀ l : List AppTask, t ∉ l → removeFirst t l = l := by
  intro l
  induction l with
  | nil => intro _; rfl
  | cons x xs ih =>
    intro h
    have hx : ¬ x = t := by
      intro hx
      exact h (by rw [← hx]; exact List.mem_cons_self x xs)
    rw [removeFirst, if_neg hx, ih (fun hm => h (List.mem_cons_of_mem x hm))]

/-- Claim C3 is false as stated, in both of its scopes.  From the Idle
state right after the model loads, clicking Stop is not a no-op — it
overwrites the status line with "Camera stopped." (and clears the canvas
and toggles the buttons).  And clicking Stop before a concurrently invoked
Start has completed does not leave the system in Idle: the stop handler
does not cancel the in-flight start, so once `getUserMedia` and
`video.play()` resolve the session proceeds to Running — the camera starts
after the user pressed Stop. -/
theorem stop_from_idle_counterexample :
    ((runEvents (fun _ => 0) [.modelOk]).map AppState.status =
      some Status.modelLoaded) ∧
    ((runEvents (fun _ => 0) [.modelOk, .stopClick]).map AppState.status =
      some Status.cameraStopped) ∧
    Status.modelLoaded ≠ Status.cameraStopped ∧
    Status.text .cameraStopped = "Camera stopped." ∧
    ((runEvents (fun _ => 0)
        [.modelOk, .startClick, .stopClick, .gumOk, .playOk 1280 720]).map
      (fun s => (s.running, s.status)) = some (true, Status.cameraRunning)) := by
  refine ⟨by decide, by decide, by decide, by decide, by decide⟩

/-- Claim C3 (amended): clicking Stop from Idle — with no frame cycle
pending or in flight, but possibly while a concurrently invoked Start is
still awaiting `getUserMedia` or `video.play()` — leaves the session core
unchanged: `running` stays false, `stream` stays as it was (null in Idle),
the task list is untouched, so no frame callback appears and a pending
start continuation is NOT cancelled.  It is, however, not a complete
no-op: it clears the canvas, resets the button states and sets the status
to "Camera stopped.".  And because the pending start survives, a
subsequent successful `video.play()` resolution still transitions the
session to Running — Stop issued mid-start does not keep the system in
Idle. -/
theorem stop_from_idle_amended (measure : String → ℚ) (s : AppState)
    (hrun : s.running = false) (hstr : s.stream = false)
    (hframe : s.tasks.countP isFrameTask = 0) :
    (step measure .stopClick s =
      some { s with canvas := [], startDisabled := false,
                    stopDisabled := true, status := .cameraStopped }) ∧
    (∀ t : AppState, ∀ vw vh, AppTask.awaitPlay ∈ t.tasks →
       ∃ t', step measure (.playOk vw vh) t = some t' ∧ t'.running = true) := by
  constructor
  · have hno : ∀ i, AppTask.raf i ∉ s.tasks := by
      intro i hi
      have hp := List.countP_eq_zero.mp hframe _ hi
      exact hp rfl
    have h1 : (match s.rafId with
        | none => s.tasks
        | some i => removeFirst (.raf i) s.tasks) = s.tasks := by
      cases s.rafId with
      | none => rfl
      | some i => exact removeFirst_of_not_mem _ _ (hno i)
    rw [step, Option.some_inj]
    cases s
    simp only at hrun hstr h1
    subst hrun hstr
    simp only [h1]
  · intro t vw vh hp
    refine ⟨{ t with canvasW := if vw = 0 then 1280 else vw, canvasH := if vh = 0 then 720 else vh, running := true, startDisabled := true, stopDisabled := false, status := .cameraRunning, canvas := t.canvas ++ [.frame], tasks := removeFirst .awaitPlay t.tasks ++ [.awaitDetect] }, ?_, rfl⟩
    simp [step, hp]

/-- C3 witness: Stop clicked while a start is awaiting `getUserMedia`
(the pending start survives untouched), and a pending `video.play()`
resolution reaching Running. -/
theorem stop_from_idle_amended_witness :
    (step (fun _ => 0) .stopClick { initState with tasks := [AppTask.awaitGUM] } =
      some { initState with tasks := [AppTask.awaitGUM], canvas := [], startDisabled := false, stopDisabled := true, status := .cameraStopped }) ∧
    (∃ t', step (fun _ => 0) (.playOk 1280 720) { initState with tasks := [AppTask.awaitPlay] } = some t' ∧ t'.running = true) := by
  have h := stop_from_idle_amended (fun _ => 0)
    { initState with tasks := [AppTask.awaitGUM] } rfl rfl (by decide)
  exact ⟨h.1, h.2 { initState with tasks := [AppTask.awaitPlay] } 1280 720 (by decide)⟩

/-- Claim C7: a detector failure during a frame cycle is handled exactly
like an empty prediction list (the `catch` only logs), the cycle still
schedules the next frame callback without touching `running` or the
stream, and when that callback fires while still running it begins a fresh
detection attempt — no permanent failure state. -/
theorem detect_failure_recovery (measure : String → ℚ) (s : AppState)
    (now : ℚ) (hd : AppTask.awaitDetect ∈ s.tasks) :
    step measure (.detectFail now) s = step measure (.detectOk [] now) s ∧
    (∃ s', step measure (.detectFail now) s = some s' ∧
       s'.running = s.running ∧ s'.stream = s.stream ∧
       AppTask.raf s.nextId ∈ s'.tasks) ∧
    (∀ t i, t.running = true → AppTask.raf i ∈ t.tasks →
       ∃ t', step measure (.rafFire i) t = some t' ∧
         AppTask.awaitDetect ∈ t'.tasks) := by
  refine ⟨rfl, ⟨finishCycle measure s [] now, ?_, rfl, rfl, ?_⟩, ?_⟩
  · simp [step, hd]
  · simp [finishCycle]
  · intro t i ht hi
    refine ⟨{ t with tasks := removeFirst (.raf i) t.tasks ++ [.awaitDetect], canvas := t.canvas ++ [.frame] }, ?_, ?_⟩
    · simp [step, hi, ht]
    · simp

/-- C7 witness: a running state with one in-flight detection, then its
rescheduled callback firing while still running. -/
theorem detect_failure_recovery_witness :
    (step (fun _ => 0) (.detectFail 1)
        { initState with running := true, tasks := [AppTask.awaitDetect] } =
      step (fun _ => 0) (.detectOk [] 1)
        { initState with running := true, tasks := [AppTask.awaitDetect] }) ∧
    (∃ t', step (fun _ => 0) (.rafFire 1)
        { initState with running := true, tasks := [AppTask.raf 1] } =
          some t' ∧ AppTask.awaitDetect ∈ t'.tasks) := by
  have h := detect_failure_recovery (fun _ => 0)
    { initState with running := true, tasks := [AppTask.awaitDetect] } 1
    (by decide)
  exact ⟨h.1, h.2.2 { initState with running := true, tasks := [AppTask.raf 1] } 1 rfl (by decide)⟩

lemma fpsValue_500 (t : ℚ) (ht : t ≠ 0) : fpsValue (t + 500) t = 2 := by
  rw [fpsValue]
  simp only [if_neg ht]
  rw [add_sub_cancel_left]
  rw [max_eq_right (by norm_num : (1:ℚ) ≤ 500)]
  norm_num

/-- Claim C8: the FPS indicator is the raw instantaneous reciprocal of the
wall-clock delta between consecutive `drawBoxes` invocations, with the delta
clamped below by 1 ms (no exponential smoothing); in particular, after a
render at time `t` a second render at `t + 500` displays "~2.0 FPS". -/
theorem fps_indicator (measure : String → ℚ) (preds preds2 : List Detection)
    (t prev0 : ℚ) (ht : t ≠ 0) :
    (∀ now prev, prev ≠ 0 → fpsValue now prev = 1000 / max 1 (now - prev)) ∧
    (drawBoxes measure preds t prev0).2 = t ∧
    DrawCmd.fillText "#e6ecf2" appFont "~2.0 FPS" 16 26 ∈
      (drawBoxes measure preds2 (t + 500) (drawBoxes measure preds t prev0).2).1 := by
  refine ⟨?_, rfl, ?_⟩
  · intro now prev h
    rw [fpsValue]
    simp only [if_neg h]
  · have htext : "~" ++ toFixed1 (fpsValue (t + 500) t) ++ " FPS" = "~2.0 FPS" := by
      rw [fpsValue_500 t ht, toFixed1_two]
      rfl
    simp [drawBoxes, fpsCmds, htext]

/-- C8 witness: renders at times 100 and 600. -/
theorem fps_indicator_witness :
    (∀ now prev : ℚ, prev ≠ 0 → fpsValue now prev = 1000 / max 1 (now - prev)) ∧
    (drawBoxes (fun _ => 0) [] 100 0).2 = 100 ∧
    DrawCmd.fillText "#e6ecf2" appFont "~2.0 FPS" 16 26 ∈
      (drawBoxes (fun _ => 0) [] (100 + 500) (drawBoxes (fun _ => 0) [] 100 0).2).1 :=
  fps_indicator (fun _ => 0) [] [] 100 0 (by norm_num)

/-- Claim C10: on the first `drawBoxes` call the stored previous timestamp
is initialised to the current time, the delta of 0 is clamped up to 1 ms
and the indicator reads "~1000.0 FPS"; more generally any delta of at most
1 ms yields an FPS value of exactly 1000. -/
theorem fps_first_call_clamped (measure : String → ℚ) (preds : List Detection)
    (now prev : ℚ) (hprev : prev ≠ 0) (hdelta : now - prev ≤ 1) :
    fpsValue now prev = 1000 ∧
    (drawBoxes measure preds now 0).2 = now ∧
    fpsValue now 0 = 1000 ∧
    DrawCmd.fillText "#e6ecf2" appFont "~1000.0 FPS" 16 26 ∈
      (drawBoxes measure preds now 0).1 := by
  have h0 : fpsValue now 0 = 1000 := by
    rw [fpsValue]
    simp only [eq_self_iff_true, if_true, sub_self]
    rw [max_eq_left (by norm_num : (0:ℚ) ≤ 1)]
    norm_num
  refine ⟨?_, rfl, h0, ?_⟩
  · rw [fpsValue]
    simp only [if_neg hprev]
    rw [max_eq_left hdelta]
    norm_num
  · have htext : "~" ++ toFixed1 (fpsValue now 0) ++ " FPS" = "~1000.0 FPS" := by
      rw [h0, toFixed1_thousand]
      rfl
    simp [drawBoxes, fpsCmds, htext]

/-- C10 witness: first call at time 1, and a later delta of half a
millisecond. -/
theorem fps_first_call_clamped_witness :
    fpsValue 1 (1/2) = 1000 ∧
    (drawBoxes (fun _ => 0) [] 1 0).2 = 1 ∧
    fpsValue 1 0 = 1000 ∧
    DrawCmd.fillText "#e6ecf2" appFont "~1000.0 FPS" 16 26 ∈
      (drawBoxes (fun _ => 0) [] 1 0).1 :=
  fps_first_call_clamped (fun _ => 0) [] 1 (1/2) (by norm_num) (by norm_num)

/-- Claim C9: for every rendered prediction, `drawBoxes` emits a filled
label chip (`rgba(0,0,0,0.6)`, height 22, clamped at the canvas top) above
the prediction's bounding box together with a label text that is the class
name followed by the confidence as a percentage with one decimal place; for
class "knife" with confidence 0.92 the label is "knife 92.0%". -/
theorem label_chip_format (measure : String → ℚ) (preds : List Detection)
    (p : Detection) (now prev : ℚ) (hp : p ∈ preds) :
    predLabel p = p.className ++ " " ++ toFixed1 (p.score * 100) ++ "%" ∧
    DrawCmd.fillRect "rgba(0,0,0,0.6)" p.bbox.1 (max 0 (p.bbox.2.1 - 22))
        (measure (predLabel p) + 2 * 8) 22 ∈ (drawBoxes measure preds now prev).1 ∧
    DrawCmd.fillText "#ffffff" appFont (predLabel p)
        (p.bbox.1 + 8) (max 12 (p.bbox.2.1 - 6)) ∈ (drawBoxes measure preds now prev).1 ∧
    predLabel ⟨"knife", 92/100, (10, 10, 50, 60)⟩ = "knife 92.0%" := by
  have hknife : predLabel ⟨"knife", 92/100, (10, 10, 50, 60)⟩ = "knife 92.0%" := by
    rw [predLabel, toFixed1_ninetytwo]
    rfl
  refine ⟨rfl, ?_, ?_, hknife⟩
  · simp only [drawBoxes, List.mem_append, List.mem_flatten]
    left
    refine ⟨drawPred measure p, List.mem_map_of_mem _ hp, ?_⟩
    simp [drawPred]
  · simp only [drawBoxes, List.mem_append, List.mem_flatten]
    left
    refine ⟨drawPred measure p, List.mem_map_of_mem _ hp, ?_⟩
    simp [drawPred]

/-- C9 witness: the spec scenario's knife prediction. -/
theorem label_chip_format_witness :
    predLabel ⟨"knife", 92/100, (10, 10, 50, 60)⟩ =
      ("knife" : String) ++ " " ++ toFixed1 (92/100 * 100) ++ "%" ∧
    predLabel ⟨"knife", 92/100, (10, 10, 50, 60)⟩ = "knife 92.0%" := by
  have h := label_chip_format (fun _ => 0)
    [⟨"knife", 92/100, (10, 10, 50, 60)⟩] ⟨"knife", 92/100, (10, 10, 50, 60)⟩
    0 0 (by simp)
  exact ⟨h.1, h.2.2.2⟩
